import Mathlib

/-!
Shallow embedding of django-object-permissions-m2m
(`object_permissions_m2m/registration.py` and
`object_permissions_m2m/backend.py`).

Modelling conventions:
* Users, groups and model instances are rows identified by their primary
  keys (`Nat`).  A Django model class is a `ModelCls` (identity plus its
  pre-existing field names).  The relational store is `Db`: a users table,
  the user-group membership junction, the instance tables, and the
  per-permission junction relations.  A junction row is keyed by the model
  class and the *relation key* (the lower-cased permission name used when
  `_register` provisioned the `user_perm_<name>` / `group_perm_<name>`
  ManyToManyFields).
* Python exceptions are an explicit `PyErr` value; fallible functions
  return `Except PyErr _`.  `RegistrationException` / `UnknownPermissionException`
  of the source and Django's `DatabaseError` / `FieldError`, Python's
  `AttributeError` / `TypeError`, are the constructors.
* Django query sets are evaluated row by row: `Model.objects.filter(q)`
  with a `Q` tree whose leaves are junction-membership conditions becomes a
  boolean over each row of the base table.  An empty `Q()` is the identity
  filter (Django drops it when combined), which is embedded where the
  source builds a `Q()` and folds conditions into it.
* `granted` / `revoked` signals become a `PermEvent` list that mutating
  operations return alongside the new store.
-/

/-- Python's `str.lower()` as the source applies it to permission names
(`perm.lower()`), mapping each character to lower case. -/
def pyLower (s : String) : String :=
  ⟨s.data.map Char.toLower⟩

inductive PyErr where
  | registrationError
  | unknownPermissionError
  | databaseError
  | attributeError
  | fieldError
  | typeError
deriving DecidableEq, Repr

/-- A Django model class: its `__name__` and the field names it already has
before permission registration contributes the junction fields. -/
structure ModelCls where
  name : String
  ofields : List String
deriving DecidableEq, Repr

/-- An instance of a model class, as the pair (class, primary key). -/
structure ObjRef where
  cls : ModelCls
  pk : Nat
deriving DecidableEq, Repr

/-- The module-level registry: `registered` and `permissions_for_model`
combined, since `_register` appends to both together.  Each entry maps a
model class to the permission names registered for it (the keys of
`params['perms']`, original case). -/
structure Registry where
  entries : List (ModelCls × List String)
deriving DecidableEq, Repr

def Registry.lookup (r : Registry) (m : ModelCls) : Option (List String) :=
  (r.entries.find? fun e => decide (e.1 = m)).map (·.2)

def Registry.isRegistered (r : Registry) (m : ModelCls) : Bool :=
  (r.lookup m).isSome

/-- The permission names registered for a model, `[]` when unregistered
(used only to state theorems; the source's lookup is `get_model_perms`). -/
def Registry.registeredNames (r : Registry) (m : ModelCls) : List String :=
  (r.lookup m).getD []

/-- The backing relational store. `userEdges`/`groupEdges` hold one row per
grant edge: (model class, relation key = lower-cased permission name,
principal pk, object pk). -/
structure Db where
  users : List Nat
  memberships : List (Nat × Nat)
  instances : List (ModelCls × Nat)
  userEdges : List (ModelCls × String × Nat × Nat)
  groupEdges : List (ModelCls × String × Nat × Nat)
deriving DecidableEq, Repr

inductive PermEvent where
  | granted : Nat → String → ModelCls → Nat → PermEvent
  | revoked : Nat → String → ModelCls → Nat → PermEvent
deriving DecidableEq, Repr

def hasUserEdge (db : Db) (m : ModelCls) (lp : String) (u opk : Nat) : Bool :=
  decide ((m, lp, u, opk) ∈ db.userEdges)

def hasGroupEdge (db : Db) (m : ModelCls) (lp : String) (g opk : Nat) : Bool :=
  decide ((m, lp, g, opk) ∈ db.groupEdges)

def addUserEdge (db : Db) (m : ModelCls) (lp : String) (u opk : Nat) : Db :=
  { db with userEdges := (m, lp, u, opk) :: db.userEdges }

def removeUserEdge (db : Db) (m : ModelCls) (lp : String) (u opk : Nat) : Db :=
  { db with userEdges := db.userEdges.filter fun e => !decide (e = (m, lp, u, opk)) }

/-- Number of rows of the `user_perm_<lp>` junction linking `u` to `opk`. -/
def countUserEdge (db : Db) (m : ModelCls) (lp : String) (u opk : Nat) : Nat :=
  (db.userEdges.filter fun e => decide (e = (m, lp, u, opk))).length

def instancesOf (db : Db) (m : ModelCls) : List Nat :=
  (db.instances.filter fun e => decide (e.1 = m)).map (·.2)

/-- Whether `getattr(obj, 'user_perm_<lp>')` resolves on instances of `m`:
`_register` contributed the pair of ManyToManyFields for the lower-cased
name of every registered permission, so the relation named by `lp` exists
iff some registered name lower-cases to it. -/
def userRelExists (r : Registry) (m : ModelCls) (lp : String) : Bool :=
  match r.lookup m with
  | some ps => decide (∃ n ∈ ps, pyLower n = lp)
  | none => false

/-- `'groups__group_perm_<lp>' : user` joins: some membership row (u, g)
whose group g holds the group edge for `lp` on `opk`. -/
def userGroupHasEdge (db : Db) (m : ModelCls) (lp : String) (u opk : Nat) : Bool :=
  db.memberships.any fun mg => decide (mg.1 = u) && hasGroupEdge db m lp mg.2 opk

/-! ## Registration (`register`, `_register`, `_register_delayed`) -/

/-- Names reserved by Django for Model instances (`forbidden`). -/
def forbidden : List String :=
  ["full_clean", "clean_fields", "clean", "validate_unique", "save", "pk",
   "delete", "get_absolute_url"]

/-- A `(params, model, app_label)` tuple queued in `_DELAYED` (the
app label plays no role in the embedded logic). -/
structure RegEntry where
  model : ModelCls
  perms : List String
deriving DecidableEq, Repr

/-- Module state touched by registration: the registry, the `_DELAYED`
queue, and whether `_register_delayed` is still connected to the
`post_syncdb` signal. -/
structure RegState where
  registry : Registry
  delayed : List RegEntry
  connected : Bool
deriving DecidableEq, Repr

/-- The per-permission collision check of `_register`: for each permission
in order, `user_perm_<lower>` and `group_perm_<lower>` are checked against
the field names existing so far (the model's own fields plus the junction
fields contributed for earlier permissions of the same call), then both
are contributed. -/
def collidesGo (existing : List String) : List String → Bool
  | [] => false
  | p :: rest =>
    let u := "user_perm_" ++ pyLower p
    let g := "group_perm_" ++ pyLower p
    decide (u ∈ existing) || decide (g ∈ existing) || collidesGo (g :: u :: existing) rest

/-- `_register`: double registration is a warned no-op; a junction-field
name collision raises `RegistrationException`; the schema write needs the
backing store to be ready for this model (`dbReady`), otherwise Django
raises `DatabaseError`; on success the model and its permission names are
committed to the registry. -/
def _register (dbReady : ModelCls → Bool) (reg : Registry) (e : RegEntry) :
    Except PyErr Registry :=
  if reg.isRegistered e.model then .ok reg
  else if collidesGo e.model.ofields e.perms then .error .registrationError
  else if dbReady e.model then .ok ⟨reg.entries ++ [(e.model, e.perms)]⟩
  else .error .databaseError

/-- `register`: rejects forbidden permission names, then calls `_register`;
a `DatabaseError` is caught and the entry appended to `_DELAYED`, any other
error propagates. -/
def register (dbReady : ModelCls → Bool) (s : RegState) (e : RegEntry) :
    Except PyErr RegState :=
  if e.perms.any (fun p => decide (p ∈ forbidden)) then .error .registrationError
  else
    match _register dbReady s.registry e with
    | .ok r' => .ok { s with registry := r' }
    | .error .databaseError => .ok { s with delayed := s.delayed ++ [e] }
    | .error err => .error err

/-- The `for args in _DELAYED: _register(*args)` loop.  Registry updates of
entries processed before a `DatabaseError` persist (module state); the
`DatabaseError` aborts the loop and is caught by the surrounding `except`,
leaving `done = false`; other exceptions propagate.  The queue itself is
never modified by the loop. -/
def drainGo (dbReady : ModelCls → Bool) : Registry → List RegEntry →
    Except PyErr (Registry × Bool)
  | reg, [] => .ok (reg, true)
  | reg, e :: rest =>
    match _register dbReady reg e with
    | .ok r' => drainGo dbReady r' rest
    | .error .databaseError => .ok (reg, false)
    | .error err => .error err

/-- `_register_delayed`: runs the drain loop over `_DELAYED`; only when the
whole loop completes is the handler disconnected from `post_syncdb`.
`_DELAYED` is left exactly as it was in either case. -/
def _register_delayed (dbReady : ModelCls → Bool) (s : RegState) :
    Except PyErr RegState :=
  match drainGo dbReady s.registry s.delayed with
  | .error e => .error e
  | .ok (r', done) => .ok ⟨r', s.delayed, s.connected && !done⟩

/-! ## GrantStore (`grant`, `revoke`, `revoke_all`, `set_user_perms`) -/

/-- `get_model_perms` restricted to a model class (instances are resolved
to their class at every call site embedded here). -/
def get_model_perms (r : Registry) (m : ModelCls) : Except PyErr (List String) :=
  match r.lookup m with
  | some ps => .ok ps
  | none => .error .registrationError

/-- `grant(user, perm, obj)`: resolves `user_perm_<perm.lower()>`
(`UnknownPermissionException` when the relation does not exist), adds the
edge and fires `granted` only when it is not already present. -/
def grant (r : Registry) (db : Db) (user : Nat) (perm : String) (obj : ObjRef) :
    Except PyErr (Db × List PermEvent) :=
  let lp := pyLower perm
  if userRelExists r obj.cls lp then
    if hasUserEdge db obj.cls lp user obj.pk then .ok (db, [])
    else .ok (addUserEdge db obj.cls lp user obj.pk, [.granted user perm obj.cls obj.pk])
  else .error .unknownPermissionError

/-- `revoke(user, perm, obj)`: a missing relation fails silently; the edge
is removed and `revoked` fired only when it was present. -/
def revoke (r : Registry) (db : Db) (user : Nat) (perm : String) (obj : ObjRef) :
    Db × List PermEvent :=
  let lp := pyLower perm
  if userRelExists r obj.cls lp then
    if hasUserEdge db obj.cls lp user obj.pk then
      (removeUserEdge db obj.cls lp user obj.pk, [.revoked user perm obj.cls obj.pk])
    else (db, [])
  else (db, [])

def revokeAllGo (cls : ModelCls) (user opk : Nat) :
    List String → Db → List PermEvent → Db × List PermEvent
  | [], db, ev => (db, ev)
  | perm :: rest, db, ev =>
    let lp := pyLower perm
    if hasUserEdge db cls lp user opk then
      revokeAllGo cls user opk rest (removeUserEdge db cls lp user opk)
        (ev ++ [.revoked user perm cls opk])
    else revokeAllGo cls user opk rest db ev

/-- `revoke_all(user, obj)`: iterates every registered permission name of
the object's model (so an unregistered model raises) and revokes each held
edge, one `revoked` event per edge actually removed. -/
def revoke_all (r : Registry) (db : Db) (user : Nat) (obj : ObjRef) :
    Except PyErr (Db × List PermEvent) :=
  match get_model_perms r obj.cls with
  | .error e => .error e
  | .ok perms => .ok (revokeAllGo obj.cls user obj.pk perms db [])

/-- The reconciliation loop of `set_user_perms` over the keys of the
`all_perms` dict: `getattr` on a key with no backing relation raises
`AttributeError`; otherwise grants a desired-but-absent key, revokes a
held-but-undesired key, and leaves agreeing keys untouched. -/
def setPermsGo (r : Registry) (cls : ModelCls) (user opk : Nat) (desired : List String) :
    List String → Db → List PermEvent → Except PyErr (Db × List PermEvent)
  | [], db, ev => .ok (db, ev)
  | key :: rest, db, ev =>
    let lp := pyLower key
    if userRelExists r cls lp then
      let des := decide (key ∈ desired)
      let held := hasUserEdge db cls lp user opk
      if !des && held then
        setPermsGo r cls user opk desired rest (removeUserEdge db cls lp user opk)
          (ev ++ [.revoked user key cls opk])
      else if des && !held then
        setPermsGo r cls user opk desired rest (addUserEdge db cls lp user opk)
          (ev ++ [.granted user key cls opk])
      else setPermsGo r cls user opk desired rest db ev
    else .error .attributeError

/-- `set_user_perms(user, perms, obj)`: an empty desired set short-circuits
to `revoke_all`; otherwise the `all_perms` dict maps every registered name
to False, then every desired name to True (a desired name that is not
registered becomes an extra key), and the loop reconciles each key. -/
def set_user_perms (r : Registry) (db : Db) (user : Nat) (perms : List String) (obj : ObjRef) :
    Except PyErr (Db × List PermEvent) :=
  if perms.isEmpty then revoke_all r db user obj
  else
    match get_model_perms r obj.cls with
    | .error e => .error e
    | .ok reg =>
      let keys := (reg ++ perms.filter fun p => !decide (p ∈ reg)).eraseDups
      setPermsGo r obj.cls user obj.pk perms keys db []

/-! ## PermissionResolver (`user_has_perm`, `user_has_any_perms`,
`user_has_all_perms`, `get_users_all`) -/

/-- `user_has_perm(user, perm, obj, groups)`: `RegistrationException` from
`get_model_perms` is caught and collapses to False, as does a permission
name that is not (exactly) a registered name.  Otherwise the query over
`User.objects` anchored at the user row: the user's reverse accessor to the
`user_perm` junction contains `obj`, or (when `groups`) the user belongs to
a group whose `group_perm` junction contains `obj`. -/
def user_has_perm (r : Registry) (db : Db) (user : Nat) (perm : String) (obj : ObjRef)
    (groups : Bool) : Bool :=
  match get_model_perms r obj.cls with
  | .error _ => false
  | .ok ps =>
    if decide (perm ∈ ps) then
      let lp := pyLower perm
      db.users.any fun u => decide (u = user) &&
        (hasUserEdge db obj.cls lp u obj.pk || (groups && userGroupHasEdge db obj.cls lp u obj.pk))
    else false

/-- A target of the `*_any_perms` / `*_all_perms` family: a model instance
or a model class. -/
inductive PermTarget where
  | inst : ObjRef → PermTarget
  | cls : ModelCls → PermTarget

def PermTarget.model : PermTarget → ModelCls
  | .inst o => o.cls
  | .cls m => m

/-- The effective permission set: `None` or an empty sequence (falsy in
Python) defaults to all registered names; an explicitly supplied non-empty
set is intersected with the registered names, silently dropping unknown
names.  `get_model_perms` still raises for an unregistered model. -/
def effPerms (r : Registry) (m : ModelCls) (perms : Option (List String)) :
    Except PyErr (List String) :=
  match get_model_perms r m with
  | .error e => .error e
  | .ok reg =>
    match perms with
    | some ps => if ps.isEmpty then .ok reg else .ok ((ps.filter fun p => decide (p ∈ reg)).eraseDups)
    | none => .ok reg

/-- `perm_<lp>_<model>_set__isnull: False` anchored at a user row: the
user is linked to some object through the `user_perm_<lp>` junction. -/
def hasAnyUserEdge (db : Db) (m : ModelCls) (lp : String) (u : Nat) : Bool :=
  db.userEdges.any fun e => decide (e.1 = m ∧ e.2.1 = lp ∧ e.2.2.1 = u)

def hasAnyGroupEdge (db : Db) (m : ModelCls) (lp : String) (g : Nat) : Bool :=
  db.groupEdges.any fun e => decide (e.1 = m ∧ e.2.1 = lp ∧ e.2.2.1 = g)

/-- `user_has_any_perms(user, obj, perms, groups)`: the query starts from
an empty `Q()` (the identity filter, kept when no condition is OR-ed into
it), ORs one junction-membership leaf per effective permission (instance
targets test the edge to the instance, class targets test `__isnull:
False`), ANDs `pk=user.pk`, and runs an existence query over
`User.objects`. -/
def user_has_any_perms (r : Registry) (db : Db) (user : Nat) (target : PermTarget)
    (perms : Option (List String)) (groups : Bool) : Except PyErr Bool :=
  match effPerms r target.model perms with
  | .error e => .error e
  | .ok eff =>
    let leaf : Nat → String → Bool := fun u p =>
      let lp := pyLower p
      match target with
      | .inst o => hasUserEdge db o.cls lp u o.pk || (groups && userGroupHasEdge db o.cls lp u o.pk)
      | .cls m => hasAnyUserEdge db m lp u ||
          (groups && db.memberships.any fun mg => decide (mg.1 = u) && hasAnyGroupEdge db m lp mg.2)
    .ok (db.users.any fun u => decide (u = user) && (eff.isEmpty || eff.any (leaf u)))

/-- `user_has_all_perms(user, obj, perms, groups)`: the query runs over
`model.objects`, AND-ing per effective permission the condition
`user_perm_<lp> : user` OR (when `groups`) `group_perm_<lp>__user : user`,
all anchored at the same object row; an instance target additionally pins
`pk=obj.pk`.  The existence result therefore asks for one instance
satisfying every conjunct. -/
def user_has_all_perms (r : Registry) (db : Db) (user : Nat) (target : PermTarget)
    (perms : List String) (groups : Bool) : Except PyErr Bool :=
  match effPerms r target.model (some perms) with
  | .error e => .error e
  | .ok eff =>
    let m := target.model
    let rowOK : Nat → Bool := fun opk =>
      (match target with
       | .inst o => decide (opk = o.pk)
       | .cls _ => true) &&
      eff.all fun p =>
        let lp := pyLower p
        hasUserEdge db m lp user opk || (groups && userGroupHasEdge db m lp user opk)
    .ok ((instancesOf db m).any rowOK)

/-- `.values_list('pk', flat=True)` of a user's reverse accessor to the
`user_perm_<lp>` junction: the object pks the user is directly linked to. -/
def directPks (db : Db) (m : ModelCls) (lp : String) (u : Nat) : List Nat :=
  (db.userEdges.filter fun e => decide (e.1 = m ∧ e.2.1 = lp ∧ e.2.2.1 = u)).map (·.2.2.2)

/-- Left fold of pairwise set intersection over the per-permission pk
sets, as the post-filter of `get_users_all` computes it. -/
def interList : List (List Nat) → List Nat
  | [] => []
  | s :: rest => rest.foldl (fun acc t => acc.filter fun x => decide (x ∈ t)) s

/-- `get_users_all(obj, perms, groups)`: a pre-filter over `User.objects`
ANDs per effective permission the direct-or-group junction condition.  For
an instance target that query is the answer.  For a class target the
post-filter walks each candidate user and permission key, collecting
direct object pks and — when `groups` — the pks reachable through each of
the user's groups; but the source iterates `u.groups`, a related manager,
which is not iterable, so reaching that line raises `TypeError`.  With
`groups` false the candidate is kept iff the intersection of its
per-permission pk sets is non-empty; with no effective permission no
candidate is kept. -/
def get_users_all (r : Registry) (db : Db) (target : PermTarget) (perms : List String)
    (groups : Bool) : Except PyErr (List Nat) :=
  match effPerms r target.model (some perms) with
  | .error e => .error e
  | .ok eff =>
    let m := target.model
    let pre := db.users.filter fun u => eff.all fun p =>
      let lp := pyLower p
      match target with
      | .inst o => hasUserEdge db m lp u o.pk || (groups && userGroupHasEdge db m lp u o.pk)
      | .cls _ => hasAnyUserEdge db m lp u ||
          (groups && db.memberships.any fun mg => decide (mg.1 = u) && hasAnyGroupEdge db m lp mg.2)
    match target with
    | .inst _ => .ok pre
    | .cls _ =>
      if eff.isEmpty then .ok []
      else if groups then
        if pre.isEmpty then .ok [] else .error .typeError
      else
        .ok (pre.filter fun u => !(interList (eff.map fun p => directPks db m (pyLower p) u)).isEmpty)

/-! ## AuthorizationAdapter (`ObjectPermBackend`) -/

/-- The request principal handed to the backend: a user row pk and whether
`is_authenticated()` holds. -/
structure AuthUser where
  pk : Nat
  authenticated : Bool
deriving DecidableEq, Repr

/-- The `obj` argument of `get_all_permissions`: a model instance or some
non-model Python value. -/
inductive PyObj where
  | model : ObjRef → PyObj
  | nonModel : PyObj

/-- `ObjectPermBackend.has_perm`: an unauthenticated user is replaced by
the configured anonymous user, or the check is False when none is
configured; a missing object is False; otherwise delegates to
`user_has_perm(user, perm, obj, True)`. -/
def has_perm (anonymous : Option Nat) (r : Registry) (db : Db) (u : AuthUser)
    (perm : String) (obj : Option ObjRef) : Bool :=
  match (if u.authenticated then some u.pk else anonymous) with
  | none => false
  | some upk =>
    match obj with
    | none => false
    | some o => user_has_perm r db upk perm o true

/-- The per-permission loop of `ObjectPermBackend.get_all_permissions`:
the lookup keys are built from the RAW permission name
(`'user_perm_%s' % perm`, no `.lower()`), so a registered name that is not
already lower-case names no field and the filter raises `FieldError`.
When the key does resolve, the query `model.objects.filter(q).exists()`
has no `pk=obj.pk` restriction: it tests the permission against *any*
instance of the model. -/
def getAllPermsGo (r : Registry) (db : Db) (m : ModelCls) (upk : Nat) :
    List String → List String → Except PyErr (List String)
  | acc, [] => .ok acc
  | acc, perm :: rest =>
    if userRelExists r m perm then
      let hold := (instancesOf db m).any fun opk =>
        hasUserEdge db m perm upk opk || userGroupHasEdge db m perm upk opk
      getAllPermsGo r db m upk (if hold then acc ++ [perm] else acc) rest
    else .error .fieldError

/-- `ObjectPermBackend.get_all_permissions`: empty for an unauthenticated
user with no anonymous fallback and for a missing or non-model object;
then `get_model_perms(model)` runs with no exception handler, and each
registered name is tested through `getAllPermsGo`. -/
def get_all_permissions (anonymous : Option Nat) (r : Registry) (db : Db) (u : AuthUser)
    (obj : Option PyObj) : Except PyErr (List String) :=
  match (if u.authenticated then some u.pk else anonymous) with
  | none => .ok []
  | some upk =>
    match obj with
    | none => .ok []
    | some .nonModel => .ok []
    | some (.model o) =>
      match get_model_perms r o.cls with
      | .error e => .error e
      | .ok perms => getAllPermsGo r db o.cls upk [] perms

/-! ## Concrete fixtures

Small registries and stores used to evaluate the embedded operations at
explicit inputs (the registered names mirror the repository's own test
parameters: `TestModel` with mixed-case `Perm1`, and the `eat`/`order`/`pay`
example of the docstrings). -/

/-- A model registered with the two lower-case permissions `a` and `b`. -/
def abCls : ModelCls := ⟨"Doc", ["id"]⟩

def abReg : Registry := ⟨[(abCls, ["a", "b"])]⟩

/-- User 1 holds both `a` and `b` directly on the single instance 1. -/
def abDbPair : Db := ⟨[1], [], [(abCls, 1)], [(abCls, "a", 1, 1), (abCls, "b", 1, 1)], []⟩

/-- User 1 exists, instance 1 exists, no grant edge at all. -/
def abDbNoEdges : Db := ⟨[1], [], [(abCls, 1)], [], []⟩

/-- User 1 holds `a` only on instance 10 and `b` only on instance 20. -/
def abDbSplit : Db :=
  ⟨[1], [], [(abCls, 10), (abCls, 20)], [(abCls, "a", 1, 10), (abCls, "b", 1, 20)], []⟩

/-- User 1 holds both `a` and `b` on instance 10. -/
def abDbBoth : Db :=
  ⟨[1], [], [(abCls, 10), (abCls, 20)], [(abCls, "a", 1, 10), (abCls, "b", 1, 10)], []⟩

/-- User 1 is a member of group 5, and group 5 holds the group edge for
`a` on instance 10; user 1 holds nothing directly. -/
def abDbGrp : Db := ⟨[1], [(1, 5)], [(abCls, 10)], [], [(abCls, "a", 5, 10)]⟩

/-- The repository's own test model: a mixed-case permission name. -/
def tmCls : ModelCls := ⟨"TestModel", ["id", "name"]⟩

def tmReg : Registry := ⟨[(tmCls, ["Perm1"])]⟩

def tmDb : Db := ⟨[1], [], [(tmCls, 1)], [], []⟩

/-- The docstring example: a model with permissions `eat`, `order`, `pay`. -/
def mealCls : ModelCls := ⟨"Meal", ["id"]⟩

def mealReg : Registry := ⟨[(mealCls, ["eat", "order", "pay"])]⟩

/-- User 1 holds exactly `order` on instance 1 of `mealCls`. -/
def mealDb : Db := ⟨[1], [], [(mealCls, 1)], [(mealCls, "order", 1, 1)], []⟩

def unregCls : ModelCls := ⟨"Unregistered", ["id"]⟩

def emptyReg : Registry := ⟨[]⟩

/-- One queued delayed registration and the state holding it. -/
def delayedEntry : RegEntry := ⟨⟨"Delayed", []⟩, ["a"]⟩

def delayedState : RegState := ⟨⟨[]⟩, [delayedEntry], true⟩

/-- The state `_register_delayed` produces from `delayedState` once the
schema is available: provisioned, disconnected, and still queued. -/
def drainedState : RegState := ⟨⟨[(⟨"Delayed", []⟩, ["a"])]⟩, [delayedEntry], false⟩

/-! ## Helper lemmas -/

theorem hasUserEdge_add (db : Db) (m m' : ModelCls) (lp lp' : String) (u u' opk opk' : Nat) :
    hasUserEdge (addUserEdge db m lp u opk) m' lp' u' opk' =
      (decide (m' = m ∧ lp' = lp ∧ u' = u ∧ opk' = opk) || hasUserEdge db m' lp' u' opk') := by
  simp [hasUserEdge, addUserEdge, List.mem_cons, Prod.mk.injEq]

theorem hasUserEdge_remove (db : Db) (m m' : ModelCls) (lp lp' : String) (u u' opk opk' : Nat) :
    hasUserEdge (removeUserEdge db m lp u opk) m' lp' u' opk' =
      (!decide (m' = m ∧ lp' = lp ∧ u' = u ∧ opk' = opk) && hasUserEdge db m' lp' u' opk') := by
  simp [hasUserEdge, removeUserEdge, List.mem_filter, Prod.mk.injEq]
  rw [Bool.and_comm]

/-- A query over `User.objects` that conjoins `pk=u` evaluates the row
predicate exactly at `u` when the row exists. -/
theorem any_pk (l : List Nat) (u : Nat) (f : Nat → Bool) :
    (l.any fun x => decide (x = u) && f x) = (decide (u ∈ l) && f u) := by
  induction l with
  | nil => simp
  | cons a t ih =>
    simp only [List.any_cons, ih]
    by_cases hau : a = u
    · subst hau
      cases hf : f a <;> cases ht : decide (a ∈ t) <;> simp [hf, ht, List.mem_cons]
    · simp [hau, Ne.symm hau]

theorem pyLower_a : pyLower "a" = "a" := rfl
theorem pyLower_b : pyLower "b" = "b" := rfl
theorem pyLower_eat : pyLower "eat" = "eat" := rfl
theorem pyLower_order : pyLower "order" = "order" := rfl
theorem pyLower_pay : pyLower "pay" = "pay" := rfl

theorem registry_mono_append (entries : List (ModelCls × List String))
    (x : ModelCls × List String) (m : ModelCls)
    (h : (Registry.mk entries).isRegistered m = true) :
    (Registry.mk (entries ++ [x])).isRegistered m = true := by
  induction entries with
  | nil => simp [Registry.isRegistered, Registry.lookup] at h
  | cons a t ih =>
    unfold Registry.isRegistered Registry.lookup at h ⊢
    by_cases hm : a.1 = m
    · simp [List.find?_cons_of_pos, hm]
    · simp only [List.cons_append, List.find?_cons_of_neg, hm, decide_eq_true_eq,
        not_false_eq_true] at h ⊢
      exact ih h

theorem registry_self_append (entries : List (ModelCls × List String))
    (mp : ModelCls × List String) :
    (Registry.mk (entries ++ [mp])).isRegistered mp.1 = true := by
  induction entries with
  | nil => simp [Registry.isRegistered, Registry.lookup, List.find?]
  | cons a t ih =>
    unfold Registry.isRegistered Registry.lookup at ih ⊢
    by_cases hm : a.1 = mp.1
    · simp [List.find?_cons_of_pos, hm]
    · simp only [List.cons_append, List.find?_cons_of_neg, hm, decide_eq_true_eq,
        not_false_eq_true]
      exact ih

theorem register_inner_noop (dbReady : ModelCls → Bool) (reg : Registry) (e : RegEntry)
    (h : reg.isRegistered e.model = true) :
    _register dbReady reg e = .ok reg := by
  unfold _register
  simp [h]

theorem register_inner_registered (dbReady : ModelCls → Bool) (reg r' : Registry)
    (e : RegEntry) (h : _register dbReady reg e = .ok r') :
    r'.isRegistered e.model = true := by
  unfold _register at h
  cases hb : reg.isRegistered e.model with
  | true =>
    rw [hb] at h
    simp only [if_true] at h
    cases h
    exact hb
  | false =>
    rw [hb] at h
    simp only [Bool.false_eq_true, if_false] at h
    cases hc : collidesGo e.model.ofields e.perms with
    | true => rw [hc] at h; simp at h
    | false =>
      rw [hc] at h
      simp only [Bool.false_eq_true, if_false] at h
      cases hd : dbReady e.model with
      | true =>
        rw [hd] at h
        simp only [if_true, Except.ok.injEq] at h
        subst h
        cases reg with
        | mk entries => exact registry_self_append entries (e.model, e.perms)
      | false => rw [hd] at h; simp at h

theorem register_inner_mono (dbReady : ModelCls → Bool) (reg r' : Registry) (e : RegEntry)
    (h : _register dbReady reg e = .ok r') (m : ModelCls)
    (hm : reg.isRegistered m = true) : r'.isRegistered m = true := by
  unfold _register at h
  cases hb : reg.isRegistered e.model with
  | true =>
    rw [hb] at h
    simp only [if_true] at h
    cases h
    exact hm
  | false =>
    rw [hb] at h
    simp only [Bool.false_eq_true, if_false] at h
    cases hc : collidesGo e.model.ofields e.perms with
    | true => rw [hc] at h; simp at h
    | false =>
      rw [hc] at h
      simp only [Bool.false_eq_true, if_false] at h
      cases hd : dbReady e.model with
      | true =>
        rw [hd] at h
        simp only [if_true, Except.ok.injEq] at h
        subst h
        cases reg with
        | mk entries => exact registry_mono_append entries (e.model, e.perms) m hm
      | false => rw [hd] at h; simp at h

theorem register_inner_no_dbError (dbReady : ModelCls → Bool) (reg : Registry) (e : RegEntry)
    (hready : dbReady e.model = true) :
    _register dbReady reg e ≠ .error .databaseError := by
  unfold _register
  cases hb : reg.isRegistered e.model <;> simp [hb]
  cases hc : collidesGo e.model.ofields e.perms <;> simp [hc, hready]

/-- The drain loop, when every queued model's schema is available and the
loop succeeds: it completes, registers every queued model, preserves prior
registrations, and re-running it over the same (never pruned) queue is a
no-op thanks to the double-registration guard. -/
theorem drainGo_ok (dbReady : ModelCls → Bool) :
    ∀ (es : List RegEntry) (reg reg' : Registry) (done : Bool),
    es.all (fun e => dbReady e.model) = true →
    drainGo dbReady reg es = .ok (reg', done) →
    done = true ∧ (∀ e ∈ es, reg'.isRegistered e.model = true) ∧
      (∀ m, reg.isRegistered m = true → reg'.isRegistered m = true) ∧
      drainGo dbReady reg' es = .ok (reg', true) := by
  intro es
  induction es with
  | nil =>
    intro reg reg' done _ hok
    unfold drainGo at hok
    simp only [Except.ok.injEq, Prod.mk.injEq] at hok
    obtain ⟨rfl, rfl⟩ := hok
    exact ⟨rfl, by simp, fun m h => h, rfl⟩
  | cons e rest ih =>
    intro reg reg' done hall hok
    simp only [List.all_cons, Bool.and_eq_true] at hall
    unfold drainGo at hok
    cases hreg : _register dbReady reg e with
    | ok r1 =>
      rw [hreg] at hok
      obtain ⟨hd, hmem, hmono, hre⟩ := ih r1 reg' done hall.2 hok
      have hereg : reg'.isRegistered e.model = true :=
        hmono _ (register_inner_registered dbReady reg r1 e hreg)
      refine ⟨hd, ?_, ?_, ?_⟩
      · intro x hx
        rcases List.mem_cons.mp hx with rfl | hx'
        · exact hereg
        · exact hmem _ hx'
      · intro m hm
        exact hmono m (register_inner_mono dbReady reg r1 e hreg m hm)
      · unfold drainGo
        rw [register_inner_noop dbReady reg' e hereg]
        exact hre
    | error err =>
      rw [hreg] at hok
      cases err with
      | databaseError =>
        exact absurd hreg (register_inner_no_dbError dbReady reg e hall.1)
      | registrationError => simp at hok
      | unknownPermissionError => simp at hok
      | attributeError => simp at hok
      | fieldError => simp at hok
      | typeError => simp at hok

/-! ## Claim C1 — boundary checks -/

/-- Claim C1 (amended): `has_perm` never raises — it returns false for an
unauthenticated principal with no anonymous fallback, for an absent object,
and for an object of an unregistered model (where `user_has_perm` catches
the `RegistrationError` internally); `get_all_permissions` returns an empty
listing for an unauthenticated principal with no anonymous fallback and for
an absent or non-model object.  (As stated the claim also asserted that
`get_all_permissions` returns empty for an unregistered model; the
counterexample shows it propagates `RegistrationError` there.) -/
theorem boundary_checks_degrade (anonymous : Option Nat) (r : Registry) (db : Db)
    (au : AuthUser) (perm : String) (obj : Option ObjRef) (pobj : Option PyObj)
    (M : ModelCls) (opk : Nat) (hM : r.lookup M = none) :
    has_perm none r db ⟨au.pk, false⟩ perm obj = false ∧
    has_perm anonymous r db au perm none = false ∧
    has_perm anonymous r db au perm (some ⟨M, opk⟩) = false ∧
    get_all_permissions none r db ⟨au.pk, false⟩ pobj = .ok [] ∧
    get_all_permissions anonymous r db au none = .ok [] ∧
    get_all_permissions anonymous r db au (some .nonModel) = .ok [] := by
  have huhp : ∀ upk, user_has_perm r db upk perm ⟨M, opk⟩ true = false := by
    intro upk
    unfold user_has_perm get_model_perms
    rw [hM]
  refine ⟨?_, ?_, ?_, ?_, ?_, ?_⟩
  · cases obj <;> rfl
  · unfold has_perm
    cases h : (if au.authenticated then some au.pk else anonymous) <;> simp
  · unfold has_perm
    cases h : (if au.authenticated then some au.pk else anonymous) with
    | none => simp
    | some upk => simp [huhp upk]
  · cases pobj with
    | none => rfl
    | some po => cases po <;> rfl
  · unfold get_all_permissions
    cases h : (if au.authenticated then some au.pk else anonymous) <;> simp
  · unfold get_all_permissions
    cases h : (if au.authenticated then some au.pk else anonymous) <;> simp

/-- Claim C1, witness: the amended statement evaluated with an empty
registry, an unregistered model instance, and no anonymous user. -/
theorem boundary_checks_degrade_witness :
    has_perm none emptyReg tmDb ⟨1, false⟩ "x" (some ⟨unregCls, 1⟩) = false ∧
    has_perm none emptyReg tmDb ⟨1, true⟩ "x" none = false ∧
    has_perm none emptyReg tmDb ⟨1, true⟩ "x" (some ⟨unregCls, 1⟩) = false ∧
    get_all_permissions none emptyReg tmDb ⟨1, false⟩ (some (.model ⟨unregCls, 1⟩)) = .ok [] ∧
    get_all_permissions none emptyReg tmDb ⟨1, true⟩ none = .ok [] ∧
    get_all_permissions none emptyReg tmDb ⟨1, true⟩ (some .nonModel) = .ok [] :=
  boundary_checks_degrade none emptyReg tmDb ⟨1, true⟩ "x" (some ⟨unregCls, 1⟩)
    (some (.model ⟨unregCls, 1⟩)) unregCls 1 rfl

/-- Claim C1, counterexample: `get_all_permissions` called by an
authenticated user on an instance of an unregistered model does not return
an empty listing — the `RegistrationError` from `get_model_perms` (which
the backend does not catch) propagates. -/
theorem get_all_permissions_unregistered_raises :
    get_all_permissions none emptyReg tmDb ⟨1, true⟩ (some (.model ⟨unregCls, 1⟩)) =
      .error .registrationError := rfl

/-! ## Claim C2 — type-level all-of semantics of the boolean check -/

/-- Claim C2: with permissions `a` and `b` registered, a principal holding
`a` only on instance O1 and `b` only on instance O2 (O1 ≠ O2, and nothing
through groups) fails the type-level `user_has_all_perms` check for
`{a, b}` — the conjunctive query is anchored at one object row — while a
principal holding both on the single instance O1 passes it. -/
theorem user_has_all_perms_type_level (r : Registry) (M : ModelCls) (ps : List String)
    (P O1 O2 : Nat) (db1 db2 : Db)
    (hr : r.lookup M = some ps) (ha : "a" ∈ ps) (hb : "b" ∈ ps) (hne : O1 ≠ O2)
    (h1a : ∀ o, hasUserEdge db1 M "a" P o = decide (o = O1))
    (h1b : ∀ o, hasUserEdge db1 M "b" P o = decide (o = O2))
    (hm1 : db1.memberships = [])
    (h2a : ∀ o, hasUserEdge db2 M "a" P o = decide (o = O1))
    (h2b : ∀ o, hasUserEdge db2 M "b" P o = decide (o = O1))
    (hm2 : db2.memberships = [])
    (hO1 : O1 ∈ instancesOf db2 M) :
    user_has_all_perms r db1 P (.cls M) ["a", "b"] true = .ok false ∧
    user_has_all_perms r db2 P (.cls M) ["a", "b"] true = .ok true := by
  have hg1 : ∀ lp o, userGroupHasEdge db1 M lp P o = false := by
    intro lp o
    unfold userGroupHasEdge
    rw [hm1]
    rfl
  have hg2 : ∀ lp o, userGroupHasEdge db2 M lp P o = false := by
    intro lp o
    unfold userGroupHasEdge
    rw [hm2]
    rfl
  have heff : effPerms r M (some ["a", "b"]) = .ok ["a", "b"] := by
    unfold effPerms get_model_perms
    rw [hr]
    simp only [List.filter_cons, ha, hb, decide_True, if_true, List.isEmpty_cons,
      Bool.false_eq_true, if_false, List.filter_nil]
    rfl
  constructor
  · simp only [user_has_all_perms, PermTarget.model, heff]
    simp only [List.all_cons, List.all_nil, pyLower_a, pyLower_b, h1a, h1b, hg1,
      Bool.and_true, Bool.true_and, Bool.or_false, Except.ok.injEq]
    rw [List.any_eq_false]
    intro x _
    simp only [Bool.and_eq_true, decide_eq_true_eq]
    rintro ⟨rfl, rfl⟩
    exact hne rfl
  · simp only [user_has_all_perms, PermTarget.model, heff]
    simp only [Except.ok.injEq]
    rw [List.any_eq_true]
    refine ⟨O1, hO1, ?_⟩
    simp [pyLower_a, pyLower_b, h2a, h2b, hg2]

/-- Claim C2, witness: the two stores `abDbSplit` (a on 10, b on 20) and
`abDbBoth` (both on 10). -/
theorem user_has_all_perms_type_level_witness :
    user_has_all_perms abReg abDbSplit 1 (.cls abCls) ["a", "b"] true = .ok false ∧
    user_has_all_perms abReg abDbBoth 1 (.cls abCls) ["a", "b"] true = .ok true :=
  user_has_all_perms_type_level abReg abCls ["a", "b"] 1 10 20 abDbSplit abDbBoth
    rfl (by decide) (by decide) (by decide)
    (fun o => by simp [hasUserEdge, abDbSplit, abCls])
    (fun o => by simp [hasUserEdge, abDbSplit, abCls])
    rfl
    (fun o => by simp [hasUserEdge, abDbBoth, abCls])
    (fun o => by simp [hasUserEdge, abDbBoth, abCls])
    rfl (by decide)

/-! ## Claim C3 — type-level all-of listing -/

/-- Claim C3 (code bug): `get_users_all` on a model class with
`groups=True` never reaches its intersection post-filter when a candidate
user exists — the source iterates `u.groups`, a related manager that is not
iterable, so the call raises `TypeError`.  With `groups=False` the
intersection semantics does hold: user 1, holding `a` and `b` on the same
instance, is returned. -/
theorem get_users_all_class_groups_eval :
    get_users_all abReg abDbPair (.cls abCls) ["a", "b"] true = .error .typeError ∧
    get_users_all abReg abDbPair (.cls abCls) ["a", "b"] false = .ok [1] :=
  ⟨rfl, rfl⟩

/-! ## Claim C4 — group inheritance of the single-permission check -/

/-- Claim C4: for an existing user and a permission name registered for the
object's model, `user_has_perm` with `groups=True` holds iff the user holds
the user edge on the object or belongs to some group holding the group edge
on it; with `groups=False` the group disjunct is dropped. -/
theorem user_has_perm_group_inheritance (r : Registry) (db : Db) (U : Nat) (p : String)
    (O : ObjRef) (ps : List String) (hU : U ∈ db.users) (hr : r.lookup O.cls = some ps)
    (hp : p ∈ ps) :
    user_has_perm r db U p O true =
      (hasUserEdge db O.cls (pyLower p) U O.pk || userGroupHasEdge db O.cls (pyLower p) U O.pk) ∧
    user_has_perm r db U p O false = hasUserEdge db O.cls (pyLower p) U O.pk := by
  unfold user_has_perm get_model_perms
  rw [hr]
  simp only [hp, decide_eq_true_eq, if_true, decide_True, Bool.true_and, Bool.false_and,
    Bool.or_false]
  constructor
  · rw [any_pk]
    simp [hU]
  · rw [any_pk]
    simp [hU]

/-- Claim C4, witness: user 1 has `a` on instance 10 only through
membership in group 5, which holds the group edge. -/
theorem user_has_perm_group_inheritance_witness :
    user_has_perm abReg abDbGrp 1 "a" ⟨abCls, 10⟩ true =
      (hasUserEdge abDbGrp abCls "a" 1 10 || userGroupHasEdge abDbGrp abCls "a" 1 10) ∧
    user_has_perm abReg abDbGrp 1 "a" ⟨abCls, 10⟩ false = hasUserEdge abDbGrp abCls "a" 1 10 :=
  user_has_perm_group_inheritance abReg abDbGrp 1 "a" ⟨abCls, 10⟩ ["a", "b"]
    (by decide) rfl (by decide)

/-! ## Claim C5 — lower-cased storage keys -/

/-- Claim C5 (code bug): registration provisions the junction relations
under the lower-cased name (`user_perm_perm1` for the registered mixed-case
`Perm1`), and `grant` / `user_has_perm` address them through `perm.lower()`;
but the backend's `get_all_permissions` builds its lookup keys from the raw
registered name (`user_perm_Perm1`), which names no field, so the query
raises `FieldError` instead of using the lower-cased key. -/
theorem backend_raw_key_eval :
    _register (fun _ => true) emptyReg ⟨tmCls, ["Perm1"]⟩ = .ok tmReg ∧
    userRelExists tmReg tmCls "perm1" = true ∧
    userRelExists tmReg tmCls "Perm1" = false ∧
    grant tmReg tmDb 1 "Perm1" ⟨tmCls, 1⟩ =
      .ok (addUserEdge tmDb tmCls "perm1" 1 1, [.granted 1 "Perm1" tmCls 1]) ∧
    user_has_perm tmReg (addUserEdge tmDb tmCls "perm1" 1 1) 1 "Perm1" ⟨tmCls, 1⟩ true = true ∧
    get_all_permissions none tmReg tmDb ⟨1, true⟩ (some (.model ⟨tmCls, 1⟩)) =
      .error .fieldError :=
  ⟨rfl, by decide, by decide, rfl, by decide, rfl⟩

/-! ## Claim C6 — set_user_perms reconciliation -/

/-- Claim C6: on a model registered with `{eat, order, pay}` where the user
holds exactly `order`, `set_user_perms` with desired set `{eat}` grants
`eat` (one granted event), revokes `order` (one revoked event), touches
nothing for `pay`, and leaves the held set exactly `{eat}`; an empty
desired set is literally `revoke_all`, which leaves the held set empty
with one revoked event for `order`. -/
theorem set_user_perms_reconciles (r : Registry) (db : Db) (P : Nat) (obj : ObjRef)
    (hr : r.lookup obj.cls = some ["eat", "order", "pay"])
    (he : hasUserEdge db obj.cls "eat" P obj.pk = false)
    (ho : hasUserEdge db obj.cls "order" P obj.pk = true)
    (hp : hasUserEdge db obj.cls "pay" P obj.pk = false) :
    set_user_perms r db P ["eat"] obj =
      .ok (removeUserEdge (addUserEdge db obj.cls "eat" P obj.pk) obj.cls "order" P obj.pk,
        [.granted P "eat" obj.cls obj.pk, .revoked P "order" obj.cls obj.pk]) ∧
    (hasUserEdge (removeUserEdge (addUserEdge db obj.cls "eat" P obj.pk)
        obj.cls "order" P obj.pk) obj.cls "eat" P obj.pk = true ∧
      hasUserEdge (removeUserEdge (addUserEdge db obj.cls "eat" P obj.pk)
        obj.cls "order" P obj.pk) obj.cls "order" P obj.pk = false ∧
      hasUserEdge (removeUserEdge (addUserEdge db obj.cls "eat" P obj.pk)
        obj.cls "order" P obj.pk) obj.cls "pay" P obj.pk = false) ∧
    set_user_perms r db P [] obj = revoke_all r db P obj ∧
    revoke_all r db P obj =
      .ok (removeUserEdge db obj.cls "order" P obj.pk,
        [.revoked P "order" obj.cls obj.pk]) ∧
    (hasUserEdge (removeUserEdge db obj.cls "order" P obj.pk) obj.cls "eat" P obj.pk = false ∧
      hasUserEdge (removeUserEdge db obj.cls "order" P obj.pk) obj.cls "order" P obj.pk = false ∧
      hasUserEdge (removeUserEdge db obj.cls "order" P obj.pk) obj.cls "pay" P obj.pk = false) := by
  have hreE : userRelExists r obj.cls "eat" = true := by
    unfold userRelExists
    rw [hr]
    rfl
  have hreO : userRelExists r obj.cls "order" = true := by
    unfold userRelExists
    rw [hr]
    rfl
  have hreP : userRelExists r obj.cls "pay" = true := by
    unfold userRelExists
    rw [hr]
    rfl
  have hOafterE : hasUserEdge (addUserEdge db obj.cls "eat" P obj.pk)
      obj.cls "order" P obj.pk = true := by
    rw [hasUserEdge_add]
    simp [ho]
  have hPafterEO : hasUserEdge (removeUserEdge (addUserEdge db obj.cls "eat" P obj.pk)
      obj.cls "order" P obj.pk) obj.cls "pay" P obj.pk = false := by
    rw [hasUserEdge_remove, hasUserEdge_add]
    simp [hp]
  have hmain : set_user_perms r db P ["eat"] obj =
      setPermsGo r obj.cls P obj.pk ["eat"] ["eat", "order", "pay"] db [] := by
    unfold set_user_perms get_model_perms
    rw [hr]
    rfl
  refine ⟨?_, ⟨?_, ?_, ?_⟩, ?_, ?_, ⟨?_, ?_, ?_⟩⟩
  · rw [hmain]
    simp only [setPermsGo, pyLower_eat, pyLower_order, pyLower_pay, hreE, hreO, hreP,
      he, hOafterE, hPafterEO, if_true]
    simp
  · rw [hasUserEdge_remove, hasUserEdge_add]
    simp
  · rw [hasUserEdge_remove]
    simp
  · exact hPafterEO
  · rfl
  · unfold revoke_all get_model_perms
    rw [hr]
    have h1 : hasUserEdge (removeUserEdge db obj.cls "order" P obj.pk)
        obj.cls "pay" P obj.pk = false := by
      rw [hasUserEdge_remove]
      simp [hp]
    simp only [revokeAllGo, pyLower_eat, pyLower_order, pyLower_pay, he, ho, h1]
    simp
  · rw [hasUserEdge_remove]
    simp [he]
  · rw [hasUserEdge_remove]
    simp
  · rw [hasUserEdge_remove]
    simp [hp]

/-- Claim C6, witness: the fixture where user 1 holds exactly `order` on
instance 1 of the `eat`/`order`/`pay` model. -/
theorem set_user_perms_reconciles_witness :
    set_user_perms mealReg mealDb 1 ["eat"] ⟨mealCls, 1⟩ =
      .ok (removeUserEdge (addUserEdge mealDb mealCls "eat" 1 1) mealCls "order" 1 1,
        [.granted 1 "eat" mealCls 1, .revoked 1 "order" mealCls 1]) ∧
    (hasUserEdge (removeUserEdge (addUserEdge mealDb mealCls "eat" 1 1) mealCls "order" 1 1)
        mealCls "eat" 1 1 = true ∧
      hasUserEdge (removeUserEdge (addUserEdge mealDb mealCls "eat" 1 1) mealCls "order" 1 1)
        mealCls "order" 1 1 = false ∧
      hasUserEdge (removeUserEdge (addUserEdge mealDb mealCls "eat" 1 1) mealCls "order" 1 1)
        mealCls "pay" 1 1 = false) ∧
    set_user_perms mealReg mealDb 1 [] ⟨mealCls, 1⟩ = revoke_all mealReg mealDb 1 ⟨mealCls, 1⟩ ∧
    revoke_all mealReg mealDb 1 ⟨mealCls, 1⟩ =
      .ok (removeUserEdge mealDb mealCls "order" 1 1, [.revoked 1 "order" mealCls 1]) ∧
    (hasUserEdge (removeUserEdge mealDb mealCls "order" 1 1) mealCls "eat" 1 1 = false ∧
      hasUserEdge (removeUserEdge mealDb mealCls "order" 1 1) mealCls "order" 1 1 = false ∧
      hasUserEdge (removeUserEdge mealDb mealCls "order" 1 1) mealCls "pay" 1 1 = false) :=
  set_user_perms_reconciles mealReg mealDb 1 ⟨mealCls, 1⟩ rfl (by decide) (by decide) (by decide)

/-! ## Claim C7 — grant idempotence -/

/-- Claim C7: when the permission's junction relation exists and the edge is
absent, `grant` inserts exactly one edge and fires one granted event, and a
second identical `grant` returns the same store with no event and no
duplicate row (the junction still counts exactly one matching row). -/
theorem grant_idempotent (r : Registry) (db : Db) (user : Nat) (perm : String) (obj : ObjRef)
    (hrel : userRelExists r obj.cls (pyLower perm) = true)
    (h0 : hasUserEdge db obj.cls (pyLower perm) user obj.pk = false) :
    grant r db user perm obj =
      .ok (addUserEdge db obj.cls (pyLower perm) user obj.pk,
        [.granted user perm obj.cls obj.pk]) ∧
    countUserEdge (addUserEdge db obj.cls (pyLower perm) user obj.pk)
      obj.cls (pyLower perm) user obj.pk = 1 ∧
    grant r (addUserEdge db obj.cls (pyLower perm) user obj.pk) user perm obj =
      .ok (addUserEdge db obj.cls (pyLower perm) user obj.pk, []) := by
  have hmem : (obj.cls, pyLower perm, user, obj.pk) ∉ db.userEdges := by
    simpa [hasUserEdge] using h0
  refine ⟨?_, ?_, ?_⟩
  · simp [grant, hrel, h0]
  · have hnil : db.userEdges.filter
        (fun e => decide (e = (obj.cls, pyLower perm, user, obj.pk))) = [] := by
      rw [List.filter_eq_nil_iff]
      intro a ha
      simp only [decide_eq_true_eq]
      rintro rfl
      exact hmem ha
    simp [countUserEdge, addUserEdge, List.filter_cons, hnil]
  · simp [grant, hrel, hasUserEdge, addUserEdge, List.mem_cons]

/-- Claim C7, witness: granting `Perm1` (stored under `perm1`) twice to
user 1 on instance 1 of the test model. -/
theorem grant_idempotent_witness :
    grant tmReg tmDb 1 "Perm1" ⟨tmCls, 1⟩ =
      .ok (addUserEdge tmDb tmCls "perm1" 1 1, [.granted 1 "Perm1" tmCls 1]) ∧
    countUserEdge (addUserEdge tmDb tmCls "perm1" 1 1) tmCls "perm1" 1 1 = 1 ∧
    grant tmReg (addUserEdge tmDb tmCls "perm1" 1 1) 1 "Perm1" ⟨tmCls, 1⟩ =
      .ok (addUserEdge tmDb tmCls "perm1" 1 1, []) :=
  grant_idempotent tmReg tmDb 1 "Perm1" ⟨tmCls, 1⟩ (by decide) (by decide)

/-! ## Claim C8 — unknown-permission asymmetry -/

/-- Claim C8 (amended): `grant` raises `UnknownPermissionError` exactly when
the lower-cased name resolves no junction relation (no registered name
lower-cases to it), while `user_has_perm` returns false, without raising,
for any name that is not literally a registered name.  (As stated the claim
made `grant` raise for every name not registered for the type; the
counterexample shows a case-variant of a registered name is granted
instead.) -/
theorem unknown_perm_asymmetry (r : Registry) (db : Db) (u : Nat) (p : String) (obj : ObjRef)
    (gs : Bool) (hnot : p ∉ r.registeredNames obj.cls) :
    (grant r db u p obj = .error .unknownPermissionError ↔
      userRelExists r obj.cls (pyLower p) = false) ∧
    user_has_perm r db u p obj gs = false := by
  constructor
  · unfold grant
    cases hrel : userRelExists r obj.cls (pyLower p)
    · simp [hrel]
    · simp only [hrel, if_true]
      cases h : hasUserEdge db obj.cls (pyLower p) u obj.pk <;> simp [h]
  · unfold user_has_perm get_model_perms
    cases hl : r.lookup obj.cls with
    | none => rfl
    | some ps =>
      unfold Registry.registeredNames at hnot
      rw [hl] at hnot
      simp only [Option.getD_some] at hnot
      simp [hnot]

/-- Claim C8, witness: `bogus` on the test model — no relation backs it, so
`grant` raises and the check is false. -/
theorem unknown_perm_asymmetry_witness :
    (grant tmReg tmDb 1 "bogus" ⟨tmCls, 1⟩ = .error .unknownPermissionError ↔
      userRelExists tmReg tmCls "bogus" = false) ∧
    user_has_perm tmReg tmDb 1 "bogus" ⟨tmCls, 1⟩ true = false :=
  unknown_perm_asymmetry tmReg tmDb 1 "bogus" ⟨tmCls, 1⟩ true (by decide)

/-- Claim C8, counterexample: `perm1` is not a registered name of the test
model (only `Perm1` is), yet `grant` does not raise — it lower-cases the
name, finds the `user_perm_perm1` relation and inserts the edge. -/
theorem grant_case_variant_ok :
    grant tmReg tmDb 1 "perm1" ⟨tmCls, 1⟩ =
      .ok (addUserEdge tmDb tmCls "perm1" 1 1, [.granted 1 "perm1" tmCls 1]) ∧
    ("perm1" ∈ tmReg.registeredNames tmCls) = False :=
  ⟨rfl, by simp [Registry.registeredNames, Registry.lookup, tmReg, tmCls]⟩

/-! ## Claim C9 — empty effective set under any-of semantics -/

/-- Claim C9 (code bug): `user_has_any_perms` with an explicit non-empty
permission set none of whose members is registered drops the unknown names
without error, but then the query is the empty `Q()` AND `pk=user.pk` — an
identity filter on the user row — so the check returns True for any
existing user instead of the OR of zero predicates (False). -/
theorem user_has_any_perms_vacuous_eval :
    user_has_any_perms abReg abDbNoEdges 1 (.inst ⟨abCls, 1⟩) (some ["bogus"]) true =
      .ok true ∧
    ("bogus" ∈ abReg.registeredNames abCls) = False :=
  ⟨rfl, by simp [Registry.registeredNames, Registry.lookup, abReg, abCls]⟩

/-! ## Claim C10 — the delayed-registration drain -/

/-- Claim C10 (amended): when `_register_delayed` completes successfully
and every queued model's schema is available, every queued entry ends up
registered, the `_DELAYED` queue is left exactly as it was (successful
entries are *not* removed), and running the drain again returns the same
state unchanged — re-registration of an already-registered model is a
warned no-op, so entries are provisioned at most once.  (As stated the
claim said a successful entry is removed from the queue; the counterexample
shows it stays queued.) -/
theorem register_delayed_drain (dbReady : ModelCls → Bool) (s st : RegState)
    (hok : _register_delayed dbReady s = .ok st)
    (hready : s.delayed.all (fun e => dbReady e.model) = true) :
    st.delayed = s.delayed ∧
    s.delayed.all (fun e => st.registry.isRegistered e.model) = true ∧
    _register_delayed dbReady st = .ok st := by
  unfold _register_delayed at hok
  cases hd : drainGo dbReady s.registry s.delayed with
  | error e => rw [hd] at hok; cases hok
  | ok pr =>
    obtain ⟨r', done⟩ := pr
    rw [hd] at hok
    simp only [Except.ok.injEq] at hok
    obtain ⟨hdone, hmem, _, hre⟩ := drainGo_ok dbReady s.delayed s.registry r' done hready hd
    subst hdone
    subst hok
    refine ⟨rfl, ?_, ?_⟩
    · rw [List.all_eq_true]
      intro e he
      exact hmem e he
    · unfold _register_delayed
      simp only []
      rw [hre]
      simp

/-- Claim C10, witness: the one-entry queue drained with the schema
available. -/
theorem register_delayed_drain_witness :
    drainedState.delayed = delayedState.delayed ∧
    delayedState.delayed.all (fun e => drainedState.registry.isRegistered e.model) = true ∧
    _register_delayed (fun _ => true) drainedState = .ok drainedState :=
  register_delayed_drain (fun _ => true) delayedState drainedState rfl (by decide)

/-- Claim C10, counterexample: the drain registers the queued model but the
queue still holds the entry afterwards — it was not removed. -/
theorem register_delayed_keeps_queue :
    _register_delayed (fun _ => true) delayedState = .ok drainedState ∧
    drainedState.delayed = [delayedEntry] ∧
    drainedState.registry.isRegistered delayedEntry.model = true :=
  ⟨rfl, rfl, by decide⟩
